import Mathlib

/-!
Shallow embedding of the breaking_bad_drf_api repository
(`src/characters/views.py`, `src/characters/models.py`,
`src/locations/views.py`, `src/locations/models.py`) and proofs about it.

Record stores are modelled as Lean lists in insertion order; Django
querysets become list filters, `order_by` becomes a stable insertion
sort, query parameters become `Option String` (with Python string
truthiness made explicit), and the floating-point distance annotation is
modelled over the real numbers.  Datetimes and dates are kept as their
ISO-format strings; text comparison is the lexicographic order on the
underlying character lists, which agrees with Python's and the database
collation's ordering for the ASCII data the API stores.
-/

namespace BreakingBad

/-- Python truthiness of an optional query-parameter string:
`None` and the empty string are falsy, everything else is truthy. -/
def truthy : Option String → Bool
  | none => false
  | some s => !(s == "")

/-- ASCII lower-casing of one character, modelling Python `str.lower`
on the ASCII strings the API handles. -/
def lowerChar (c : Char) : Char :=
  if 65 ≤ c.toNat ∧ c.toNat ≤ 90 then Char.ofNat (c.toNat + 32) else c

/-- Python `str.lower`, restricted to ASCII case mapping. -/
def pyLower (s : String) : String :=
  ⟨s.data.map lowerChar⟩

/-- Segment (contiguous-run) test used to model Python's `in` on
strings: true iff `needle` occurs contiguously inside the list. -/
def listContainsSeg (needle : List Char) : List Char → Bool
  | [] => needle.isEmpty
  | c :: cs => needle.isPrefixOf (c :: cs) || listContainsSeg needle cs

/-- Django `__icontains`: case-insensitive substring match. -/
def icontains (haystack needle : String) : Bool :=
  listContainsSeg (pyLower needle).data (pyLower haystack).data

/-- A row of the Character store (`src/characters/models.py`).
`date_of_birth` is kept as its ISO `YYYY-MM-DD` string, whose
lexicographic order is chronological order. -/
structure Character where
  id : Nat
  name : String
  date_of_birth : String
  occupation : String
  is_suspect : Bool
deriving DecidableEq

/-- Disjunctive filter predicate built by `CharacterViewSet.get_queryset`
(`src/characters/views.py` lines 29-38): the union of one `Q` clause per
truthy optional parameter. -/
def charFilterPred (name suspect occupation : Option String) (c : Character) : Bool :=
  (truthy name && icontains c.name (name.getD ""))
    || (truthy suspect && (c.is_suspect == (pyLower (suspect.getD "") == "true")))
    || (truthy occupation && icontains c.occupation (occupation.getD ""))

/-- Embedding of `CharacterViewSet.get_queryset`: if at least one of the
optional parameters is truthy, keep the rows matching the OR of the
clauses, otherwise return all rows. -/
def get_queryset (name suspect occupation : Option String)
    (records : List Character) : List Character :=
  if truthy name || truthy suspect || truthy occupation then
    records.filter (charFilterPred name suspect occupation)
  else records

/-- Embedding of `CharacterViewSet.validate_ordering_params`
(`src/characters/views.py` lines 42-48), as the boolean condition under
which no `ValidationError` is raised. -/
def validate_ordering_params (order_by ascending : Option String) : Bool :=
  (order_by == some "name" || order_by == some "date_of_birth")
    && (ascending == some "0" || ascending == some "1")

/-- The fixed 422 message raised by `validate_ordering_params`. -/
def charactersOrderingDetail : String :=
  "The query parameters `orderBy` and `ascending` are obligatory. `orderBy` only accepts `name` and `date_of_birth`. `ascending` only accepts 0 or 1"

/-- Result of the character list operation: either serialized rows (200)
or the 422 unprocessable-entity error body. -/
inductive CharsListResult where
  | ok (data : List Character)
  | unprocessable (detail : String)
deriving DecidableEq

/-- Django `order_by` comparison for the four ordering strings that
`CharacterViewSet.list` can build (`name`, `-name`, `date_of_birth`,
`-date_of_birth`). -/
def characterOrderLe (order_by : String) (a b : Character) : Prop :=
  if order_by = "name" then a.name.data ≤ b.name.data
  else if order_by = "-name" then b.name.data ≤ a.name.data
  else if order_by = "date_of_birth" then a.date_of_birth.data ≤ b.date_of_birth.data
  else b.date_of_birth.data ≤ a.date_of_birth.data

instance characterOrderLeDec (order_by : String) : DecidableRel (characterOrderLe order_by) :=
  fun a b => by unfold characterOrderLe; infer_instance

/-- Embedding of `CharacterViewSet.list` (`src/characters/views.py`
lines 74-92): validate the ordering parameters (422 on failure), filter
via `get_queryset`, then sort; `order_by` is prefixed with `-` when
`ascending` is not `"1"`.  The stable insertion sort models the ordering
applied to the row store, ties keeping insertion order. -/
def characterList (orderBy ascending name suspect occupation : Option String)
    (records : List Character) : CharsListResult :=
  if validate_ordering_params orderBy ascending then
    let filtered := get_queryset name suspect occupation records
    let sorted :=
      if truthy orderBy && truthy ascending then
        let ob := if ascending == some "1" then orderBy.getD "" else "-" ++ orderBy.getD ""
        List.insertionSort (characterOrderLe ob) filtered
      else filtered
    .ok sorted
  else .unprocessable charactersOrderingDetail

/-- A row of the Location store (`src/locations/models.py`).
`timestamp` is kept as its ISO string, whose lexicographic order is
chronological order; `lat`/`lon` are the stored fixed-point decimals,
modelled as rationals. -/
structure Location where
  id : Nat
  character : Nat
  timestamp : String
  lat : ℚ
  lon : ℚ
deriving DecidableEq

/-- Degrees to radians, modelling the SQL `RADIANS` function. -/
noncomputable def radians (x : ℝ) : ℝ := x * Real.pi / 180

/-- Rounding to six decimal digits, modelling the SQL
`ROUND(-, 6)` applied to the distance annotation. -/
noncomputable def round6 (x : ℝ) : ℝ := (round (x * 1000000) : ℤ) / 1000000

/-- The distance annotation of `LocationViewSet.filter_by_distance`
(`src/locations/views.py` lines 58-76): spherical law of cosines with the
cosine sum clamped to at most `1.0` by `Least`, scaled by the Earth
radius 6,371,000 m and rounded to six decimals. -/
noncomputable def sphericalDistance (lat0 lon0 lat1 lon1 : ℝ) : ℝ :=
  round6 (Real.arccos (min
    (Real.cos (radians lat0) * Real.cos (radians lat1) *
        Real.cos (radians lon1 - radians lon0) +
      Real.sin (radians lat0) * Real.sin (radians lat1)) 1) * 6371000)

/-- Distance annotation of one Location row relative to the reference
coordinates. -/
noncomputable def locationDistance (lat0 lon0 : ℚ) (loc : Location) : ℝ :=
  sphericalDistance (lat0 : ℝ) (lon0 : ℝ) (loc.lat : ℝ) (loc.lon : ℝ)

/-- The `ascending` query parameter defaults to `"1"`; ordering is
ascending exactly when the resulting value equals `"1"`. -/
def ascFlag (ascending : Option String) : Bool := (ascending.getD "1") == "1"

/-- Ordering relation produced by `order_by` on the distance annotation:
`distance` when ascending, `-distance` otherwise. -/
def distanceLe (lat0 lon0 : ℚ) (asc : Bool) (a b : Location) : Prop :=
  if asc then locationDistance lat0 lon0 a ≤ locationDistance lat0 lon0 b
  else locationDistance lat0 lon0 b ≤ locationDistance lat0 lon0 a

noncomputable instance distanceLeDec (lat0 lon0 : ℚ) (asc : Bool) :
    DecidableRel (distanceLe lat0 lon0 asc) :=
  fun a b => by unfold distanceLe; infer_instance

/-- Core of `LocationViewSet.filter_by_distance` once the reference
coordinates are parsed: annotate with the distance, keep rows with
`distance__lte` the maximum, and order by the (possibly negated)
annotation. -/
noncomputable def distanceFilterSort (lat0 lon0 maxD : ℚ) (ascending : Option String)
    (l : List Location) : List Location :=
  let filtered := l.filter (fun loc => decide (locationDistance lat0 lon0 loc ≤ (maxD : ℝ)))
  List.insertionSort (distanceLe lat0 lon0 (ascFlag ascending)) filtered

/-- Python `str.split` on a single comma separator, on character lists
(`"".split(",")` gives one empty part). -/
def splitOnComma (cs : List Char) : List (List Char) :=
  match cs with
  | [] => [[]]
  | c :: rest =>
    let r := splitOnComma rest
    if c = ',' then [] :: r
    else
      match r with
      | [] => [[c]]
      | h :: t => (c :: h) :: t

/-- Value of a digit string, used to model numeric coercion of
validated all-digit parameters. -/
def digitsToNat (cs : List Char) : Nat :=
  cs.foldl (fun n c => n * 10 + (c.toNat - 48)) 0

/-- Python `str.isdigit` for the ASCII strings the API receives:
non-empty and all decimal digits. -/
def isdigit (s : String) : Bool := !(s == "") && s.data.all Char.isDigit

/-- ASCII whitespace stripped by Python string-to-number conversions. -/
def pySpace (c : Char) : Bool :=
  c == ' ' || c == '\t' || c == '\n' || c == '\r' || c == '\x0b' || c == '\x0c'

/-- Strip leading and trailing whitespace. -/
def stripEnds (cs : List Char) : List Char :=
  ((cs.dropWhile pySpace).reverse.dropWhile pySpace).reverse

/-- Preprocessing `decimal.Decimal` applies to its string argument:
leading and trailing whitespace, and underscores throughout, are
removed before the numeric-string grammar is matched. -/
def cleanDecimalInput (cs : List Char) : List Char :=
  (stripEnds cs).filter (fun c => !(c == '_'))

/-- Optional leading sign; returns whether the value is negated and the
remainder. -/
def parseSign : List Char → Bool × List Char
  | '-' :: r => (true, r)
  | '+' :: r => (false, r)
  | cs => (false, cs)

/-- Split off a leading run of decimal digits. -/
def takeDigits (cs : List Char) : List Char × List Char :=
  (cs.takeWhile Char.isDigit, cs.dropWhile Char.isDigit)

/-- The `decimal-part` of Decimal's numeric-string grammar:
`digits [. [digits]] | . digits`.  Returns integer digits, fraction
digits and the remainder. -/
def parseCoefficient (cs : List Char) : Option (List Char × List Char × List Char) :=
  let (ip, r1) := takeDigits cs
  match r1 with
  | '.' :: r2 =>
    let (fp, r3) := takeDigits r2
    if ip.isEmpty && fp.isEmpty then none else some (ip, fp, r3)
  | _ => if ip.isEmpty then none else some (ip, [], r1)

/-- The optional `exponent-part` of the grammar:
`(e|E) [sign] digits`, which must consume the whole remainder. -/
def parseExponentPart (cs : List Char) : Option ℤ :=
  match cs with
  | [] => some 0
  | c :: r =>
    if c == 'e' || c == 'E' then
      let (neg, r1) := parseSign r
      let (ed, r2) := takeDigits r1
      if ed.isEmpty || !r2.isEmpty then none
      else some (if neg then -(digitsToNat ed : ℤ) else (digitsToNat ed : ℤ))
    else none

/-- Python `decimal.Decimal` string conversion for finite values:
after whitespace/underscore preprocessing, an optional sign, a
decimal-part and an optional exponent-part, with the exact rational
value.  ASCII scope (Decimal additionally accepts non-ASCII digits and
whitespace).  `Decimal` also accepts Infinity/NaN spellings
(`decimalSpecial` below); those put non-finite values into the SQL
pipeline, whose backend-specific numeric coercion is outside this
model, and the claim theorems exclude them by hypothesis. -/
def parseDecimal (cs : List Char) : Option ℚ :=
  let t := cleanDecimalInput cs
  let (neg, r) := parseSign t
  match parseCoefficient r with
  | none => none
  | some (ip, fp, rest) =>
    match parseExponentPart rest with
    | none => none
    | some e =>
      let mag : ℚ := (digitsToNat (ip ++ fp) : ℚ) * (10 : ℚ) ^ (e - (fp.length : ℤ))
      some (if neg then -mag else mag)

/-- The special (non-finite) values of Decimal's numeric-string
grammar: `[sign] (Inf | Infinity | NaN digits* | sNaN digits*)`,
case-insensitively, after the same preprocessing. -/
def decimalSpecial (cs : List Char) : Bool :=
  let (_, r) := parseSign (cleanDecimalInput cs)
  let lw := r.map lowerChar
  lw == "inf".data || lw == "infinity".data ||
    (match lw with
     | 'n' :: 'a' :: 'n' :: d => d.all Char.isDigit
     | 's' :: 'n' :: 'a' :: 'n' :: d => d.all Char.isDigit
     | _ => false)

/-- Validity of the tail of a digit run accepted by Python `int()`:
underscores must sit between digits. -/
def pyIntTail : List Char → Bool
  | [] => true
  | '_' :: c :: cs => c.isDigit && pyIntTail cs
  | c :: cs => c.isDigit && pyIntTail cs

/-- Python `int()` on a string (ASCII scope): surrounding whitespace,
an optional sign, then digits with single underscores between digits.
This is the coercion the ORM applies to the `character` query parameter
for the integer primary-key lookup; `none` models the `ValueError` it
raises. -/
def pyInt (cs : List Char) : Option ℤ :=
  let t := stripEnds cs
  let (neg, r) := parseSign t
  match r with
  | [] => none
  | c :: rest =>
    if c.isDigit && pyIntTail rest then
      let v : ℤ := digitsToNat (r.filter (fun ch => !(ch == '_')))
      some (if neg then -v else v)
    else none

/-- Gregorian leap year. -/
def isLeapYear (y : Nat) : Bool := (y % 4 == 0 && !(y % 100 == 0)) || y % 400 == 0

/-- Days in a month, as checked by the `datetime` constructor. -/
def daysInMonth (y mo : Nat) : Nat :=
  if mo == 2 then (if isLeapYear y then 29 else 28)
  else if mo == 4 || mo == 6 || mo == 9 || mo == 11 then 30 else 31

/-- The `YYYY-M[M]-D[D]` prefix shared by Django's `date_re` and
`datetime_re` (4-digit year, 1-2 digit month and day). -/
def parseYMDPart (cs : List Char) : Option (Nat × Nat × Nat × List Char) :=
  let (y, r1) := takeDigits cs
  if y.length == 4 then
    match r1 with
    | '-' :: r2 =>
      let (mo, r3) := takeDigits r2
      if mo.length == 1 || mo.length == 2 then
        match r3 with
        | '-' :: r4 =>
          let (d, r5) := takeDigits r4
          if d.length == 1 || d.length == 2 then
            some (digitsToNat y, digitsToNat mo, digitsToNat d, r5)
          else none
        | _ => none
      else none
    | _ => none
  else none

/-- The `H[H]:M[M][:S[S][.ffffff]]` part of Django's `datetime_re`
(fractional seconds: 1-6 captured digits plus up to 6 ignored). -/
def parseTimePart (cs : List Char) : Option (Nat × Nat × Option Nat × List Char) :=
  let (h, r1) := takeDigits cs
  if h.length == 1 || h.length == 2 then
    match r1 with
    | ':' :: r2 =>
      let (mi, r3) := takeDigits r2
      if mi.length == 1 || mi.length == 2 then
        match r3 with
        | ':' :: r4 =>
          let (s, r5) := takeDigits r4
          if s.length == 1 || s.length == 2 then
            match r5 with
            | c :: r6 =>
              if c == '.' || c == ',' then
                let (f, r7) := takeDigits r6
                if decide (1 ≤ f.length) && decide (f.length ≤ 12) then
                  some (digitsToNat h, digitsToNat mi, some (digitsToNat s), r7)
                else none
              else some (digitsToNat h, digitsToNat mi, some (digitsToNat s), r5)
            | [] => some (digitsToNat h, digitsToNat mi, some (digitsToNat s), [])
          else none
        | _ => some (digitsToNat h, digitsToNat mi, none, r3)
      else none
    | _ => none
  else none

/-- The trailing timezone of `datetime_re`: empty, `Z`, or
`[+-]HH[[:]MM]` with the fixed offset strictly below 24 hours (the
`timezone` constructor's bound). -/
def tzOk (cs : List Char) : Bool :=
  match cs with
  | [] => true
  | ['Z'] => true
  | s :: rest =>
    (s == '+' || s == '-') &&
    (match rest with
     | [a, b] => a.isDigit && b.isDigit && decide (digitsToNat [a, b] ≤ 23)
     | [a, b, m1, m2] =>
       a.isDigit && b.isDigit && m1.isDigit && m2.isDigit
         && decide (digitsToNat [a, b] * 60 + digitsToNat [m1, m2] < 1440)
     | [a, b, c, m1, m2] =>
       a.isDigit && b.isDigit && (c == ':') && m1.isDigit && m2.isDigit
         && decide (digitsToNat [a, b] * 60 + digitsToNat [m1, m2] < 1440)
     | _ => false)

/-- Calendar validity as enforced by the `datetime` constructor. -/
def validYMD (y mo d : Nat) : Bool :=
  decide (1 ≤ y) && decide (1 ≤ mo) && decide (mo ≤ 12) && decide (1 ≤ d)
    && decide (d ≤ daysInMonth y mo)

/-- Time-of-day validity as enforced by the `datetime` constructor. -/
def validTime (h mi : Nat) (s : Option Nat) : Bool :=
  decide (h ≤ 23) && decide (mi ≤ 59) && decide (s.getD 0 ≤ 59)

/-- Success of `DateTimeField.to_python` on a `timestamp__range` bound:
the bound matches Django's `datetime_re` (date, `T` or space, time,
optional timezone) or, failing that, `date_re`, with field values the
`datetime` constructor accepts.  Anything else raises the Django
`ValidationError` that the view's `except serializers.ValidationError`
clause does not catch.  ASCII scope, per `django.utils.dateparse`. -/
def djangoDatetimeOk (cs : List Char) : Bool :=
  match parseYMDPart cs with
  | some (y, mo, d, rest) =>
    (match rest with
     | c :: r1 =>
       (c == 'T' || c == ' ') &&
       (match parseTimePart r1 with
        | some (h, mi, s, r2) => tzOk r2 && validYMD y mo d && validTime h mi s
        | none => false)
     | [] => validYMD y mo d)
  | none => false

/-- Embedding of `LocationViewSet.validate_distance_params`
(`src/locations/views.py` lines 20-26) as the boolean condition under
which no `ValidationError` is raised: `coordinates` truthy and
containing a comma, `distance.isdigit()`, and the numeric value of
`distance` non-negative. -/
def validate_distance_params (coordinates : Option String) (distance : String) : Bool :=
  truthy coordinates && (coordinates.getD "").data.contains ','
    && isdigit distance && decide ((digitsToNat distance.data : ℚ) ≥ 0)

/-- The fixed 400 message raised by `validate_distance_params`. -/
def nearParamsDetail : String :=
  "The query parameters `coordinates` and `distance` are obligatory. `coordinates` accepts a `latitude,longitude` pair. `distance` accepts any value >= 0"

/-- The queryset filter of `LocationViewSet.filter_by_character`
(`src/locations/views.py` lines 28-35) once the parameter has been
coerced to an id; the filter-algebra claims are stated over this pure
step.  `filter_by_character_checked` below is the same method including
the coercion (and its crash path). -/
def filter_by_character (character : Option Nat) (l : List Location) : List Location :=
  match character with
  | none => l
  | some cid => l.filter (fun loc => loc.character == cid)

/-- Embedding of `LocationViewSet.filter_by_character` including the
ORM's coercion of the raw `character` query parameter to the integer
primary-key type: `int()` failure (e.g. `"abc"` or `""`) raises a
`ValueError` that the `near` handler does not catch. -/
def filter_by_character_checked (character : Option String) (l : List Location) :
    Except String (List Location) :=
  match character with
  | none => .ok l
  | some s =>
    match pyInt s.data with
    | some cid => .ok (l.filter (fun loc => ((loc.character : ℤ) == cid)))
    | none => .error "ValueError"

/-- Inclusive `timestamp__range` filter applied once both bounds have
been accepted by `DateTimeField.to_python`; bound validation (and its
crash path) is in `filter_by_date_range`.  Comparison is on the ISO
strings, which agree with chronological order for the uniformly
formatted values the API stores. -/
def dateRangeFilter (startD endD : List Char) (l : List Location) : List Location :=
  l.filter (fun loc => decide (startD ≤ loc.timestamp.data) && decide (loc.timestamp.data ≤ endD))

/-- Embedding of `LocationViewSet.filter_by_date_range`
(`src/locations/views.py` lines 37-45).  The tuple unpacking
`start_datetime, end_datetime = date_range.split(",")` raises an
uncaught `ValueError` unless the split has exactly two parts, and
`timestamp__range` makes `DateTimeField.to_python` raise an uncaught
Django `ValidationError` on a bound it cannot parse. -/
def filter_by_date_range (date_range : Option String) (l : List Location) :
    Except String (List Location) :=
  match date_range with
  | none => .ok l
  | some s =>
    match splitOnComma s.data with
    | [a, b] =>
      if djangoDatetimeOk a && djangoDatetimeOk b then .ok (dateRangeFilter a b l)
      else .error "ValidationError"
    | _ => .error "ValueError"

/-- Embedding of `LocationViewSet.filter_by_distance`
(`src/locations/views.py` lines 47-80): unpack `coordinates` into a
`lat,lon` pair (uncaught `ValueError` unless exactly two parts), convert
each with `Decimal` (uncaught `InvalidOperation` on malformed parts),
then filter and order by the distance annotation. -/
noncomputable def filter_by_distance (coordinates : String) (maxD : ℚ)
    (ascending : Option String) (l : List Location) : Except String (List Location) :=
  match splitOnComma coordinates.data with
  | [la, lo] =>
    match parseDecimal la, parseDecimal lo with
    | some lat0, some lon0 => .ok (distanceFilterSort lat0 lon0 maxD ascending l)
    | _, _ => .error "InvalidOperation"
  | _ => .error "ValueError"

/-- Embedding of `LocationViewSet.get_filtered_queryset`
(`src/locations/views.py` lines 82-89): character filter (with the
parameter coercion), then date range filter, then distance filter. -/
noncomputable def get_filtered_queryset (coordinates : String) (maxD : ℚ)
    (ascending : Option String) (character : Option String) (date_range : Option String)
    (l : List Location) : Except String (List Location) :=
  match filter_by_character_checked character l with
  | .error e => .error e
  | .ok q1 =>
    match filter_by_date_range date_range q1 with
    | .error e => .error e
    | .ok q => filter_by_distance coordinates maxD ascending q

/-- Result of the `near` action: serialized rows (200), the 400 error
body, or an exception escaping the handler (the `except` clause catches
only `serializers.ValidationError`). -/
inductive NearResult where
  | ok (data : List Location)
  | badRequest (detail : String)
  | crash (exc : String)
deriving DecidableEq

/-- Embedding of `LocationViewSet.near` (`src/locations/views.py`
lines 104-122): read `coordinates` (no default) and `distance`
(default `""`), validate (400 with the fixed message on failure), then
run the filter pipeline; exceptions other than the validation error
escape as `crash`. -/
noncomputable def near (coordinates distance ascending : Option String)
    (character : Option String) (date_range : Option String) (l : List Location) : NearResult :=
  let dist := distance.getD ""
  if validate_distance_params coordinates dist then
    match get_filtered_queryset (coordinates.getD "") (digitsToNat dist.data)
        ascending character date_range l with
    | .ok data => .ok data
    | .error e => .crash e
  else .badRequest nearParamsDetail

/-- Sort key selected by a valid `orderBy` parameter. -/
def charKey (order_by : String) (c : Character) : List Char :=
  if order_by = "name" then c.name.data else c.date_of_birth.data

/-- The validation condition on `distance` as the spec words it
(for refinement comparison with `validate_distance_params`):
the parameter parses as a non-negative number. -/
def parsesAsNonNegNumber (s : String) : Bool :=
  match parseDecimal s.data with
  | some q => decide (0 ≤ q)
  | none => false

/-- A `coordinates` value that the distance filter can process without
raising: exactly two comma-separated parts, each a finite decimal
numeric string. -/
def wellFormedCoordinates (c : String) : Prop :=
  ∃ la lo q1 q2, splitOnComma c.data = [la, lo]
    ∧ parseDecimal la = some q1 ∧ parseDecimal lo = some q2

/-- A `date_range` value the range filter can process without raising:
absent, or splitting into exactly two comma-separated parts that both
parse as datetimes. -/
def wellFormedDateRange : Option String → Prop
  | none => True
  | some s => ∃ a b, splitOnComma s.data = [a, b]
      ∧ djangoDatetimeOk a = true ∧ djangoDatetimeOk b = true

/-- A `character` value the ORM coercion accepts: absent or an integer
string. -/
def wellFormedCharacter : Option String → Prop
  | none => True
  | some s => ∃ cid, pyInt s.data = some cid

/-- Rounding a rational to six decimal places: the write-time precision
declared by `DecimalField(max_digits=9, decimal_places=6)` on the
Location model. -/
def quantize6 (q : ℚ) : ℚ := ((round (q * 1000000) : ℤ) : ℚ) / 1000000

/-- A rational representable at fixed six-decimal precision. -/
def Precision6 (q : ℚ) : Prop := ∃ n : ℤ, q = (n : ℚ) / 1000000

/-- Body of a PATCH (partial update) request for a Location: each field
optionally supplied. -/
structure LocationPatch where
  character : Option Nat
  timestamp : Option String
  lat : Option ℚ
  lon : Option ℚ

/-- Modelled from the spec: the generic DRF `partial_update` handler for
Locations is framework code not in `src/`; per spec sections 3 and 8,
supplied fields replace the stored ones, absent fields are kept
unchanged, and coordinates are stored at fixed six-decimal precision on
write. -/
def patchLocation (loc : Location) (p : LocationPatch) : Location :=
  { id := loc.id
    character := p.character.getD loc.character
    timestamp := p.timestamp.getD loc.timestamp
    lat := (p.lat.map quantize6).getD loc.lat
    lon := (p.lon.map quantize6).getD loc.lon }

/-- The persisted state: both record stores plus the next
server-generated ids (`BigAutoField` primary keys). -/
structure Store where
  characters : List Character
  locations : List Location
  nextCharacterId : Nat
  nextLocationId : Nat

/-- The initial empty store; ids are generated from 1 as in the tests. -/
def Store.empty : Store := ⟨[], [], 1, 1⟩

/-- True iff a Character with the given id exists: the check that the
Location serializer's primary-key field performs on `character`. -/
def characterExists (s : Store) (cid : Nat) : Bool :=
  s.characters.any (fun c => c.id == cid)

/-- Character create, with a fresh server-generated id. -/
def createCharacter (s : Store) (name dob occ : String) (suspect : Bool) : Store :=
  { s with
    characters := s.characters ++ [⟨s.nextCharacterId, name, dob, occ, suspect⟩]
    nextCharacterId := s.nextCharacterId + 1 }

/-- Character full update: every non-id field replaced, the primary key
kept. -/
def updateCharacter (s : Store) (cid : Nat) (name dob occ : String) (suspect : Bool) : Store :=
  { s with
    characters := s.characters.map
      (fun c => if c.id == cid then ⟨c.id, name, dob, occ, suspect⟩ else c) }

/-- Location create (guarded in `Step` by the referenced Character
existing); coordinates quantized on write. -/
def createLocation (s : Store) (cid : Nat) (ts : String) (lat lon : ℚ) : Store :=
  { s with
    locations := s.locations ++ [⟨s.nextLocationId, cid, ts, quantize6 lat, quantize6 lon⟩]
    nextLocationId := s.nextLocationId + 1 }

/-- Character delete with the cascade declared by
`on_delete=models.CASCADE` in `src/locations/models.py` (lines 6-13):
the Character row and every Location row referencing it are removed. -/
def deleteCharacter (s : Store) (cid : Nat) : Store :=
  { s with
    characters := s.characters.filter (fun c => !(c.id == cid))
    locations := s.locations.filter (fun loc => !(loc.character == cid)) }

/-- Location delete. -/
def deleteLocation (s : Store) (lid : Nat) : Store :=
  { s with locations := s.locations.filter (fun loc => !(loc.id == lid)) }

/-- Location partial update applied to the row with the given id. -/
def updateLocation (s : Store) (lid : Nat) (p : LocationPatch) : Store :=
  { s with
    locations := s.locations.map
      (fun loc => if loc.id == lid then patchLocation loc p else loc) }

/-- One API write operation on the store.  Location creates, and updates
that change `character`, require the referenced Character to exist, as
the serializer enforces (spec section 7, referential error). -/
inductive Step : Store → Store → Prop where
  | createCharacter (s : Store) (name dob occ : String) (suspect : Bool) :
      Step s (createCharacter s name dob occ suspect)
  | updateCharacter (s : Store) (cid : Nat) (name dob occ : String) (suspect : Bool) :
      Step s (updateCharacter s cid name dob occ suspect)
  | createLocation (s : Store) (cid : Nat) (ts : String) (lat lon : ℚ)
      (h : characterExists s cid = true) : Step s (createLocation s cid ts lat lon)
  | deleteCharacter (s : Store) (cid : Nat) : Step s (deleteCharacter s cid)
  | deleteLocation (s : Store) (lid : Nat) : Step s (deleteLocation s lid)
  | updateLocation (s : Store) (lid : Nat) (p : LocationPatch)
      (h : ∀ cid, p.character = some cid → characterExists s cid = true) :
      Step s (updateLocation s lid p)

/-- Store states reachable from the empty store by API operations. -/
inductive Reachable : Store → Prop where
  | empty : Reachable Store.empty
  | step {s s' : Store} : Reachable s → Step s s' → Reachable s'

/-- The referential invariant: character ids are unique, bounded by the
id generator, and every Location references an existing Character. -/
def Store.WF (s : Store) : Prop :=
  (s.characters.map Character.id).Nodup
    ∧ (∀ c ∈ s.characters, c.id < s.nextCharacterId)
    ∧ (∀ loc ∈ s.locations, ∃ c ∈ s.characters, c.id = loc.character)

/-- A concrete store with one Character owning one Location, as in the
repository's test fixtures. -/
def demoStore : Store :=
  createLocation (createCharacter Store.empty "Walter White" "1970-11-01" "Teacher" false)
    1 "2020-01-01T00:00:00Z" 10 10

/-- A concrete Location row at coordinates (10, 10). -/
def witnessLoc : Location := ⟨1, 1, "2020-01-01T00:00:00Z", 10, 10⟩

/-! ### Helper lemmas -/

theorem truthy_iff (o : Option String) : truthy o = true ↔ ∃ s, o = some s ∧ s ≠ "" := by
  cases o with
  | none => simp [truthy]
  | some s => simp [truthy]

theorem characterOrderLe_total (ob : String) (a b : Character) :
    characterOrderLe ob a b ∨ characterOrderLe ob b a := by
  unfold characterOrderLe
  split_ifs <;> exact le_total _ _

theorem characterOrderLe_trans (ob : String) (a b c : Character) :
    characterOrderLe ob a b → characterOrderLe ob b c → characterOrderLe ob a c := by
  unfold characterOrderLe
  split_ifs <;> intro h1 h2 <;> first
    | exact le_trans h1 h2
    | exact le_trans h2 h1

theorem validate_ordering_params_iff (orderBy ascending : Option String) :
    validate_ordering_params orderBy ascending = true ↔
      (orderBy = some "name" ∨ orderBy = some "date_of_birth")
        ∧ (ascending = some "0" ∨ ascending = some "1") := by
  unfold validate_ordering_params
  simp

/-! ### Claim theorems -/

/-- C2: for every character list request, if `orderBy` is not exactly
`name` or `date_of_birth`, or `ascending` is not exactly `"0"` or `"1"`
(including either being missing), the operation returns the 422
unprocessable error with the fixed message, regardless of the other
parameters and of the stored records; when both are valid, no such
error is returned. -/
theorem character_list_validation (orderBy ascending name suspect occupation : Option String)
    (records : List Character) :
    (((orderBy ≠ some "name" ∧ orderBy ≠ some "date_of_birth")
        ∨ (ascending ≠ some "0" ∧ ascending ≠ some "1")) →
      characterList orderBy ascending name suspect occupation records
        = .unprocessable charactersOrderingDetail)
    ∧ ((orderBy = some "name" ∨ orderBy = some "date_of_birth") →
      (ascending = some "0" ∨ ascending = some "1") →
      ∀ d, characterList orderBy ascending name suspect occupation records
        ≠ .unprocessable d) := by
  constructor
  · intro h
    have hv : validate_ordering_params orderBy ascending = false := by
      rw [Bool.eq_false_iff, Ne, validate_ordering_params_iff]
      rintro ⟨hA, hB⟩
      rcases h with ⟨h1, h2⟩ | ⟨h1, h2⟩
      · cases hA with
        | inl hA => exact h1 hA
        | inr hA => exact h2 hA
      · cases hB with
        | inl hB => exact h1 hB
        | inr hB => exact h2 hB
    unfold characterList
    rw [hv]
    simp
  · intro h1 h2 d
    have hv : validate_ordering_params orderBy ascending = true :=
      (validate_ordering_params_iff orderBy ascending).mpr ⟨h1, h2⟩
    unfold characterList
    rw [hv]
    simp

/-- Witness for C2 at the concrete request with both parameters
missing. -/
theorem character_list_validation_witness :
    characterList none none none none none [] = .unprocessable charactersOrderingDetail :=
  (character_list_validation none none none none none []).1 (Or.inl ⟨by simp, by simp⟩)

/-- C8: a partial update supplying only `lat` leaves `character`,
`timestamp` and `lon` unchanged and stores the supplied value rounded
to six decimal places; any supplied coordinate is stored at fixed
six-decimal precision. -/
theorem location_patch_frame (loc : Location) (v : ℚ) :
    (patchLocation loc ⟨none, none, some v, none⟩).character = loc.character
    ∧ (patchLocation loc ⟨none, none, some v, none⟩).timestamp = loc.timestamp
    ∧ (patchLocation loc ⟨none, none, some v, none⟩).lon = loc.lon
    ∧ (patchLocation loc ⟨none, none, some v, none⟩).lat = quantize6 v
    ∧ (∀ (p : LocationPatch) (w : ℚ), p.lat = some w → Precision6 (patchLocation loc p).lat)
    ∧ (∀ (p : LocationPatch) (w : ℚ), p.lon = some w → Precision6 (patchLocation loc p).lon) := by
  refine ⟨rfl, rfl, rfl, rfl, ?_, ?_⟩
  · intro p w hw
    exact ⟨round (w * 1000000), by simp [patchLocation, hw, quantize6]⟩
  · intro p w hw
    exact ⟨round (w * 1000000), by simp [patchLocation, hw, quantize6]⟩

/-- Witness for C8 at a concrete Location and patch value. -/
theorem location_patch_frame_witness :
    (patchLocation witnessLoc ⟨none, none, some 20, none⟩).character = 1
    ∧ (patchLocation witnessLoc ⟨none, none, some 20, none⟩).timestamp = "2020-01-01T00:00:00Z"
    ∧ (patchLocation witnessLoc ⟨none, none, some 20, none⟩).lon = 10
    ∧ Precision6 (patchLocation witnessLoc ⟨none, none, some 20, none⟩).lat := by
  have h := location_patch_frame witnessLoc 20
  exact ⟨h.1, h.2.1, h.2.2.1, h.2.2.2.2.1 _ 20 rfl⟩

theorem wf_createCharacter (s : Store) (hs : s.WF) (name dob occ : String) (suspect : Bool) :
    (createCharacter s name dob occ suspect).WF := by
  obtain ⟨h1, h2, h3⟩ := hs
  refine ⟨?_, ?_, ?_⟩
  · simp only [createCharacter, List.map_append, List.map_cons, List.map_nil]
    rw [List.nodup_append]
    refine ⟨h1, List.nodup_singleton _, ?_⟩
    intro a ha hb
    simp only [List.mem_singleton] at hb
    subst hb
    obtain ⟨c, hc, hcid⟩ := List.mem_map.mp ha
    exact absurd (hcid ▸ h2 c hc) (lt_irrefl _)
  · intro c hc
    simp only [createCharacter, List.mem_append, List.mem_singleton] at hc
    rcases hc with hc | hc
    · exact Nat.lt_succ_of_lt (h2 c hc)
    · subst hc
      exact Nat.lt_succ_self _
  · intro loc hl
    obtain ⟨c, hc, hcid⟩ := h3 loc hl
    exact ⟨c, List.mem_append_left _ hc, hcid⟩

theorem wf_updateCharacter (s : Store) (hs : s.WF) (cid : Nat) (name dob occ : String)
    (suspect : Bool) : (updateCharacter s cid name dob occ suspect).WF := by
  obtain ⟨h1, h2, h3⟩ := hs
  have hid : ∀ c : Character,
      (if c.id == cid then (⟨c.id, name, dob, occ, suspect⟩ : Character) else c).id = c.id := by
    intro c
    split <;> rfl
  refine ⟨?_, ?_, ?_⟩
  · simpa only [updateCharacter, List.map_map, Function.comp_def, hid] using h1
  · intro c hc
    obtain ⟨c0, hc0, hc0eq⟩ := List.mem_map.mp hc
    have : c.id = c0.id := by rw [← hc0eq]; exact hid c0
    rw [this]
    exact h2 c0 hc0
  · intro loc hl
    obtain ⟨c, hc, hcid⟩ := h3 loc hl
    refine ⟨if c.id == cid then ⟨c.id, name, dob, occ, suspect⟩ else c, ?_, ?_⟩
    · exact List.mem_map.mpr ⟨c, hc, rfl⟩
    · rw [hid c, hcid]

theorem wf_createLocation (s : Store) (hs : s.WF) (cid : Nat) (ts : String) (lat lon : ℚ)
    (h : characterExists s cid = true) : (createLocation s cid ts lat lon).WF := by
  obtain ⟨h1, h2, h3⟩ := hs
  refine ⟨h1, h2, ?_⟩
  intro loc hl
  simp only [createLocation, List.mem_append, List.mem_singleton] at hl
  rcases hl with hl | hl
  · exact h3 loc hl
  · subst hl
    obtain ⟨c, hc, hcid⟩ := List.any_eq_true.mp h
    exact ⟨c, hc, by simpa using hcid⟩

theorem wf_deleteCharacter (s : Store) (hs : s.WF) (cid : Nat) : (deleteCharacter s cid).WF := by
  obtain ⟨h1, h2, h3⟩ := hs
  refine ⟨?_, ?_, ?_⟩
  · exact ((List.filter_sublist _).map _).nodup h1
  · intro c hc
    exact h2 c (List.mem_of_mem_filter hc)
  · intro loc hl
    rw [deleteCharacter, List.mem_filter] at hl
    obtain ⟨c, hc, hcid⟩ := h3 loc hl.1
    have hne : loc.character ≠ cid := by simpa using hl.2
    refine ⟨c, ?_, hcid⟩
    simp only [deleteCharacter, List.mem_filter]
    exact ⟨hc, by simpa using hcid ▸ hne⟩

theorem wf_deleteLocation (s : Store) (hs : s.WF) (lid : Nat) : (deleteLocation s lid).WF := by
  obtain ⟨h1, h2, h3⟩ := hs
  exact ⟨h1, h2, fun loc hl => h3 loc (List.mem_of_mem_filter hl)⟩

theorem wf_updateLocation (s : Store) (hs : s.WF) (lid : Nat) (p : LocationPatch)
    (h : ∀ cid, p.character = some cid → characterExists s cid = true) :
    (updateLocation s lid p).WF := by
  obtain ⟨h1, h2, h3⟩ := hs
  refine ⟨h1, h2, ?_⟩
  intro loc hl
  obtain ⟨loc0, hl0, hl0eq⟩ := List.mem_map.mp hl
  by_cases hid : loc0.id == lid
  · rw [← hl0eq, hid]
    simp only [if_true]
    cases hp : p.character with
    | none => simpa [patchLocation, hp] using h3 loc0 hl0
    | some cid =>
      obtain ⟨c, hc, hcid⟩ := List.any_eq_true.mp (h cid hp)
      exact ⟨c, hc, by simpa [patchLocation, hp] using hcid⟩
  · rw [← hl0eq]
    simp only [hid, Bool.false_eq_true, if_false]
    exact h3 loc0 hl0

theorem wf_step {s s' : Store} (hs : s.WF) (hstep : Step s s') : s'.WF := by
  cases hstep with
  | createCharacter name dob occ suspect => exact wf_createCharacter s hs name dob occ suspect
  | updateCharacter cid name dob occ suspect =>
      exact wf_updateCharacter s hs cid name dob occ suspect
  | createLocation cid ts lat lon h => exact wf_createLocation s hs cid ts lat lon h
  | deleteCharacter cid => exact wf_deleteCharacter s hs cid
  | deleteLocation lid => exact wf_deleteLocation s hs lid
  | updateLocation lid p h => exact wf_updateLocation s hs lid p h

theorem reachable_wf {s : Store} (h : Reachable s) : s.WF := by
  induction h with
  | empty => exact ⟨List.nodup_nil, by simp [Store.empty], by simp [Store.empty]⟩
  | step _ hstep ih => exact wf_step ih hstep

theorem wf_unique_character {s : Store} (hs : s.WF) {loc : Location}
    (hl : loc ∈ s.locations) : ∃! c, c ∈ s.characters ∧ c.id = loc.character := by
  obtain ⟨h1, _, h3⟩ := hs
  obtain ⟨c, hc, hcid⟩ := h3 loc hl
  refine ⟨c, ⟨hc, hcid⟩, ?_⟩
  rintro c' ⟨hc', hcid'⟩
  exact List.inj_on_of_nodup_map h1 hc' hc (by rw [hcid', hcid])

/-- C6: in every reachable store state every Location references
exactly one existing Character, and deleting a Character removes it and
exactly the Locations owned by it, leaving no orphans (the remaining
store still satisfies the exactly-one-owner property). -/
theorem location_character_invariant (s : Store) (hs : Reachable s) :
    (∀ loc ∈ s.locations, ∃! c, c ∈ s.characters ∧ c.id = loc.character)
    ∧ ∀ cid : Nat,
      (∀ loc, loc ∈ (deleteCharacter s cid).locations
          ↔ loc ∈ s.locations ∧ loc.character ≠ cid)
      ∧ (∀ c ∈ (deleteCharacter s cid).characters, c.id ≠ cid)
      ∧ (∀ loc ∈ (deleteCharacter s cid).locations,
          ∃! c, c ∈ (deleteCharacter s cid).characters ∧ c.id = loc.character) := by
  have hwf := reachable_wf hs
  refine ⟨fun loc hl => wf_unique_character hwf hl, fun cid => ⟨?_, ?_, ?_⟩⟩
  · intro loc
    simp [deleteCharacter, List.mem_filter]
  · intro c hc
    rw [deleteCharacter, List.mem_filter] at hc
    simpa using hc.2
  · intro loc hl
    exact wf_unique_character (wf_deleteCharacter s hwf cid) hl

/-- Witness for C6 at a concrete reachable store with one Character
owning one Location. -/
theorem location_character_invariant_witness :
    (∀ loc ∈ demoStore.locations, ∃! c, c ∈ demoStore.characters ∧ c.id = loc.character)
    ∧ (∀ loc, loc ∈ (deleteCharacter demoStore 1).locations
        ↔ loc ∈ demoStore.locations ∧ loc.character ≠ 1) := by
  have hreach : Reachable demoStore :=
    Reachable.step
      (Reachable.step Reachable.empty
        (Step.createCharacter Store.empty "Walter White" "1970-11-01" "Teacher" false))
      (Step.createLocation _ 1 "2020-01-01T00:00:00Z" 10 10 (by decide))
  have h := location_character_invariant demoStore hreach
  exact ⟨h.1, (h.2 1).1⟩

theorem charFilterPred_iff (name suspect occupation : Option String) (c : Character) :
    charFilterPred name suspect occupation c = true ↔
      (∃ n, name = some n ∧ n ≠ "" ∧ icontains c.name n = true)
      ∨ (∃ s, suspect = some s ∧ s ≠ "" ∧ c.is_suspect = (pyLower s == "true"))
      ∨ (∃ o, occupation = some o ∧ o ≠ "" ∧ icontains c.occupation o = true) := by
  unfold charFilterPred
  cases name <;> cases suspect <;> cases occupation <;> simp [truthy, and_assoc, or_assoc]

theorem get_queryset_mem (name suspect occupation : Option String) (records : List Character)
    (c : Character) :
    c ∈ get_queryset name suspect occupation records ↔
      c ∈ records ∧ ((truthy name || truthy suspect || truthy occupation) = true →
        charFilterPred name suspect occupation c = true) := by
  unfold get_queryset
  split
  next h => simp [List.mem_filter, h]
  next h => simp [h]

theorem characterList_valid_eq (orderBy ascending name suspect occupation : Option String)
    (records : List Character) (hv : validate_ordering_params orderBy ascending = true) :
    characterList orderBy ascending name suspect occupation records
      = .ok (List.insertionSort
          (characterOrderLe
            (if ascending == some "1" then orderBy.getD "" else "-" ++ orderBy.getD ""))
          (get_queryset name suspect occupation records)) := by
  have ht : (truthy orderBy && truthy ascending) = true := by
    obtain ⟨h1, h2⟩ := (validate_ordering_params_iff _ _).mp hv
    rcases h1 with h1 | h1 <;> rcases h2 with h2 | h2 <;> simp [h1, h2, truthy]
  unfold characterList
  simp [hv, ht]

theorem characterOrderLe_key (ob : String) (hob : ob = "name" ∨ ob = "date_of_birth")
    (a b : Character) : characterOrderLe ob a b ↔ charKey ob a ≤ charKey ob b := by
  rcases hob with h | h <;> subst h <;> simp [characterOrderLe, charKey]

theorem characterOrderLe_key_desc (ob : String) (hob : ob = "name" ∨ ob = "date_of_birth")
    (a b : Character) : characterOrderLe ("-" ++ ob) a b ↔ charKey ob b ≤ charKey ob a := by
  rcases hob with h | h <;> subst h
  · have e : ("-" ++ "name" : String) = "-name" := rfl
    rw [e]
    simp [characterOrderLe, charKey]
  · have e : ("-" ++ "date_of_birth" : String) = "-date_of_birth" := rfl
    rw [e]
    simp [characterOrderLe, charKey]

/-- C3: with valid ordering parameters, the returned set is the union
(OR) of the records matching each given optional predicate — `name` as
case-insensitive substring, `suspect` as equality of `is_suspect` with
the case-insensitive test against `"true"`, `occupation` as
case-insensitive substring — and all records when none is given. -/
theorem character_filter_union (ob asc : String) (name suspect occupation : Option String)
    (records : List Character)
    (hob : ob = "name" ∨ ob = "date_of_birth") (hasc : asc = "0" ∨ asc = "1") :
    ∃ data, characterList (some ob) (some asc) name suspect occupation records = .ok data ∧
      ∀ c, c ∈ data ↔ c ∈ records ∧
        ((truthy name || truthy suspect || truthy occupation) = true →
          (∃ n, name = some n ∧ n ≠ "" ∧ icontains c.name n = true)
          ∨ (∃ s, suspect = some s ∧ s ≠ "" ∧ c.is_suspect = (pyLower s == "true"))
          ∨ (∃ o, occupation = some o ∧ o ≠ "" ∧ icontains c.occupation o = true)) := by
  have hv : validate_ordering_params (some ob) (some asc) = true := by
    rw [validate_ordering_params_iff]
    constructor
    · rcases hob with h | h
      · exact Or.inl (by rw [h])
      · exact Or.inr (by rw [h])
    · rcases hasc with h | h
      · exact Or.inl (by rw [h])
      · exact Or.inr (by rw [h])
  rw [characterList_valid_eq _ _ _ _ _ _ hv]
  refine ⟨_, rfl, ?_⟩
  intro c
  rw [List.mem_insertionSort, get_queryset_mem, charFilterPred_iff]

/-- Witness for C3 at a concrete request: `name` and `suspect` given,
a record matching only `name` and a record matching only `suspect` are
both included. -/
theorem character_filter_union_witness :
    ∃ data, characterList (some "name") (some "1") (some "John") (some "true") none
        [⟨1, "John Doe", "1990-01-01", "Teacher", false⟩,
          ⟨2, "Jane Smith", "1995-05-05", "Doctor", true⟩] = .ok data ∧
      (⟨1, "John Doe", "1990-01-01", "Teacher", false⟩ : Character) ∈ data ∧
      (⟨2, "Jane Smith", "1995-05-05", "Doctor", true⟩ : Character) ∈ data := by
  obtain ⟨data, hd, hmem⟩ :=
    character_filter_union "name" "1" (some "John") (some "true") none
      [⟨1, "John Doe", "1990-01-01", "Teacher", false⟩,
        ⟨2, "Jane Smith", "1995-05-05", "Doctor", true⟩] (Or.inl rfl) (Or.inr rfl)
  refine ⟨data, hd, ?_, ?_⟩
  · exact (hmem _).mpr ⟨by simp, fun _ => Or.inl ⟨"John", rfl, by simp, by decide⟩⟩
  · exact (hmem _).mpr ⟨by simp, fun _ => Or.inr (Or.inl ⟨"true", rfl, by simp, by decide⟩)⟩

/-- C7: with valid parameters the output is a permutation of the
filtered set (sorting is applied after filtering), ordered on the chosen
field ascending for `ascending="1"` and descending for `"0"`, with
records equal on that field kept in insertion order. -/
theorem character_list_sorting (ob asc : String) (name suspect occupation : Option String)
    (records : List Character)
    (hob : ob = "name" ∨ ob = "date_of_birth") (hasc : asc = "0" ∨ asc = "1") :
    ∃ data, characterList (some ob) (some asc) name suspect occupation records = .ok data ∧
      data.Perm (get_queryset name suspect occupation records)
      ∧ (asc = "1" → data.Pairwise (fun a b => charKey ob a ≤ charKey ob b))
      ∧ (asc = "0" → data.Pairwise (fun a b => charKey ob b ≤ charKey ob a))
      ∧ (∀ a b, List.Sublist [a, b] records → a ∈ data → b ∈ data → charKey ob a = charKey ob b →
          List.Sublist [a, b] data) := by
  have hv : validate_ordering_params (some ob) (some asc) = true := by
    rw [validate_ordering_params_iff]
    constructor
    · rcases hob with h | h
      · exact Or.inl (by rw [h])
      · exact Or.inr (by rw [h])
    · rcases hasc with h | h
      · exact Or.inl (by rw [h])
      · exact Or.inr (by rw [h])
  rw [characterList_valid_eq _ _ _ _ _ _ hv]
  have hsubfil : ∀ a b : Character, List.Sublist [a, b] records →
      a ∈ get_queryset name suspect occupation records →
      b ∈ get_queryset name suspect occupation records →
      List.Sublist [a, b] (get_queryset name suspect occupation records) := by
    intro a b hab ha hb
    unfold get_queryset at *
    by_cases hcond : (truthy name || truthy suspect || truthy occupation) = true
    · rw [if_pos hcond] at ha hb ⊢
      have ha' : charFilterPred name suspect occupation a = true := (List.mem_filter.mp ha).2
      have hb' : charFilterPred name suspect occupation b = true := (List.mem_filter.mp hb).2
      have hfil : [a, b].filter (charFilterPred name suspect occupation) = [a, b] := by
        simp [ha', hb']
      exact hfil ▸ List.Sublist.filter _ hab
    · rw [if_neg hcond]
      exact hab
  rcases hasc with hasc | hasc <;> subst hasc
  · have e : (if (some "0" : Option String) == some "1"
        then (some ob).getD "" else "-" ++ (some ob).getD "") = "-" ++ ob := rfl
    rw [e]
    haveI : IsTotal Character (characterOrderLe ("-" ++ ob)) := ⟨characterOrderLe_total _⟩
    haveI : IsTrans Character (characterOrderLe ("-" ++ ob)) := ⟨characterOrderLe_trans _⟩
    refine ⟨_, rfl, List.perm_insertionSort _ _, ?_, ?_, ?_⟩
    · intro h
      exact absurd h (by decide)
    · intro _
      exact (List.sorted_insertionSort _ _).imp
        (fun h => (characterOrderLe_key_desc ob hob _ _).mp h)
    · intro a b hab ha hb hk
      rw [List.mem_insertionSort] at ha hb
      exact List.pair_sublist_insertionSort
        ((characterOrderLe_key_desc ob hob a b).mpr (le_of_eq hk.symm)) (hsubfil a b hab ha hb)
  · have e : (if (some "1" : Option String) == some "1"
        then (some ob).getD "" else "-" ++ (some ob).getD "") = ob := rfl
    rw [e]
    haveI : IsTotal Character (characterOrderLe ob) := ⟨characterOrderLe_total _⟩
    haveI : IsTrans Character (characterOrderLe ob) := ⟨characterOrderLe_trans _⟩
    refine ⟨_, rfl, List.perm_insertionSort _ _, ?_, ?_, ?_⟩
    · intro _
      exact (List.sorted_insertionSort _ _).imp
        (fun h => (characterOrderLe_key ob hob _ _).mp h)
    · intro h
      exact absurd h (by decide)
    · intro a b hab ha hb hk
      rw [List.mem_insertionSort] at ha hb
      exact List.pair_sublist_insertionSort
        ((characterOrderLe_key ob hob a b).mpr (le_of_eq hk)) (hsubfil a b hab ha hb)

/-- Witness for C7 at a concrete request sorted ascending by name. -/
theorem character_list_sorting_witness :
    ∃ data, characterList (some "name") (some "1") none none none
        [⟨1, "B", "1990-01-01", "t", false⟩, ⟨2, "A", "1991-01-01", "t", false⟩] = .ok data ∧
      data.Pairwise (fun a b => charKey "name" a ≤ charKey "name" b) := by
  obtain ⟨data, hd, _, hasc, _, _⟩ :=
    character_list_sorting "name" "1" none none none
      [⟨1, "B", "1990-01-01", "t", false⟩, ⟨2, "A", "1991-01-01", "t", false⟩]
      (Or.inl rfl) (Or.inr rfl)
  exact ⟨data, hd, hasc rfl⟩

/-- C10: optional character-filter parameters supplied as the empty
string are treated exactly like absent ones — no predicate is built and
all records are returned. -/
theorem character_empty_params (ob asc : String) (e1 e2 e3 : Option String)
    (records : List Character)
    (hob : ob = "name" ∨ ob = "date_of_birth") (hasc : asc = "0" ∨ asc = "1")
    (h1 : e1 = none ∨ e1 = some "") (h2 : e2 = none ∨ e2 = some "")
    (h3 : e3 = none ∨ e3 = some "") :
    characterList (some ob) (some asc) e1 e2 e3 records
      = characterList (some ob) (some asc) none none none records
    ∧ ∃ data, characterList (some ob) (some asc) e1 e2 e3 records = .ok data
        ∧ ∀ c, c ∈ data ↔ c ∈ records := by
  have hv : validate_ordering_params (some ob) (some asc) = true := by
    rw [validate_ordering_params_iff]
    constructor
    · rcases hob with h | h
      · exact Or.inl (by rw [h])
      · exact Or.inr (by rw [h])
    · rcases hasc with h | h
      · exact Or.inl (by rw [h])
      · exact Or.inr (by rw [h])
  have ht1 : truthy e1 = false := by rcases h1 with h | h <;> subst h <;> rfl
  have ht2 : truthy e2 = false := by rcases h2 with h | h <;> subst h <;> rfl
  have ht3 : truthy e3 = false := by rcases h3 with h | h <;> subst h <;> rfl
  have hq : get_queryset e1 e2 e3 records = records := by
    unfold get_queryset
    rw [ht1, ht2, ht3]
    simp
  have hq0 : get_queryset none none none records = records := rfl
  rw [characterList_valid_eq _ _ _ _ _ _ hv, characterList_valid_eq _ _ _ _ _ _ hv, hq, hq0]
  exact ⟨rfl, _, rfl, fun c => List.mem_insertionSort _⟩

/-- Witness for C10 at the concrete request `?name=&orderBy=name&ascending=1`. -/
theorem character_empty_params_witness :
    characterList (some "name") (some "1") (some "") none none
        [⟨1, "John Doe", "1990-01-01", "Teacher", false⟩]
      = characterList (some "name") (some "1") none none none
        [⟨1, "John Doe", "1990-01-01", "Teacher", false⟩] :=
  (character_empty_params "name" "1" (some "") none none
    [⟨1, "John Doe", "1990-01-01", "Teacher", false⟩]
    (Or.inl rfl) (Or.inr rfl) (Or.inr rfl) (Or.inl rfl) (Or.inl rfl)).1

theorem distanceLe_total (lat0 lon0 : ℚ) (asc : Bool) (a b : Location) :
    distanceLe lat0 lon0 asc a b ∨ distanceLe lat0 lon0 asc b a := by
  unfold distanceLe
  split_ifs <;> exact le_total _ _

theorem distanceLe_trans (lat0 lon0 : ℚ) (asc : Bool) (a b c : Location) :
    distanceLe lat0 lon0 asc a b → distanceLe lat0 lon0 asc b c →
    distanceLe lat0 lon0 asc a c := by
  unfold distanceLe
  split_ifs <;> intro h1 h2 <;> first
    | exact le_trans h1 h2
    | exact le_trans h2 h1

theorem sphericalDistance_self (lat lon : ℝ) : sphericalDistance lat lon lat lon = 0 := by
  unfold sphericalDistance
  have h : Real.cos (radians lat) * Real.cos (radians lat)
        * Real.cos (radians lon - radians lon)
      + Real.sin (radians lat) * Real.sin (radians lat) = 1 := by
    rw [sub_self, Real.cos_zero, mul_one]
    nlinarith [Real.sin_sq_add_cos_sq (radians lat)]
  rw [h, min_self, Real.arccos_one, zero_mul]
  unfold round6
  simp

theorem validate_distance_params_iff (coordinates : Option String) (distance : String) :
    validate_distance_params coordinates distance = true ↔
      ∃ c, coordinates = some c ∧ c ≠ "" ∧ c.data.contains ',' = true
        ∧ distance ≠ "" ∧ distance.data.all Char.isDigit = true := by
  unfold validate_distance_params isdigit
  cases coordinates with
  | none => simp [truthy]
  | some c => simp [truthy, and_assoc]

/-- C1: the distance step of the `near` pipeline keeps exactly the
candidate rows whose annotated spherical-law-of-cosines distance is at
most the maximum, orders them by that distance (ascending by default
and when `ascending="1"`, descending when `ascending="0"`), a stored
coordinate equal to the reference yields distance 0 and is kept at
maximum distance 0, and with no optional filters the `near` operation
returns exactly this pipeline's output. -/
theorem near_distance_filter (lat0 lon0 maxD : ℚ) (ascending : Option String)
    (l : List Location) :
    (∀ loc, loc ∈ distanceFilterSort lat0 lon0 maxD ascending l ↔
        loc ∈ l ∧ locationDistance lat0 lon0 loc ≤ (maxD : ℝ))
    ∧ ((ascending = none ∨ ascending = some "1") →
      (distanceFilterSort lat0 lon0 maxD ascending l).Pairwise
        (fun a b => locationDistance lat0 lon0 a ≤ locationDistance lat0 lon0 b))
    ∧ (ascending = some "0" →
      (distanceFilterSort lat0 lon0 maxD ascending l).Pairwise
        (fun a b => locationDistance lat0 lon0 b ≤ locationDistance lat0 lon0 a))
    ∧ (∀ loc, loc.lat = lat0 → loc.lon = lon0 → locationDistance lat0 lon0 loc = 0
        ∧ (loc ∈ l → loc ∈ distanceFilterSort lat0 lon0 0 ascending l))
    ∧ (∀ (c d : String) (la lo : List Char),
        splitOnComma c.data = [la, lo] → parseDecimal la = some lat0 →
        parseDecimal lo = some lon0 → c.data.contains ',' = true → isdigit d = true →
        near (some c) (some d) ascending none none l
          = .ok (distanceFilterSort lat0 lon0 (digitsToNat d.data) ascending l)) := by
  have hmem : ∀ (m : ℚ) loc, loc ∈ distanceFilterSort lat0 lon0 m ascending l ↔
      loc ∈ l ∧ locationDistance lat0 lon0 loc ≤ (m : ℝ) := by
    intro m loc
    unfold distanceFilterSort
    rw [List.mem_insertionSort, List.mem_filter, decide_eq_true_eq]
  haveI : IsTotal Location (distanceLe lat0 lon0 (ascFlag ascending)) :=
    ⟨distanceLe_total _ _ _⟩
  haveI : IsTrans Location (distanceLe lat0 lon0 (ascFlag ascending)) :=
    ⟨distanceLe_trans _ _ _⟩
  refine ⟨hmem maxD, ?_, ?_, ?_, ?_⟩
  · intro hasc
    have hflag : ascFlag ascending = true := by rcases hasc with h | h <;> subst h <;> rfl
    unfold distanceFilterSort
    exact (List.sorted_insertionSort _ _).imp (fun h => by
      unfold distanceLe at h
      rwa [hflag, if_pos rfl] at h)
  · intro hasc
    subst hasc
    have hflag : ascFlag (some "0") = false := rfl
    unfold distanceFilterSort
    exact (List.sorted_insertionSort _ _).imp (fun h => by
      unfold distanceLe at h
      simpa using h)
  · intro loc hlat hlon
    have hz : locationDistance lat0 lon0 loc = 0 := by
      unfold locationDistance
      rw [hlat, hlon]
      exact sphericalDistance_self _ _
    exact ⟨hz, fun hl => (hmem 0 loc).mpr ⟨hl, by rw [hz]; simp⟩⟩
  · intro c d la lo hsplit hla hlo hcomma hdig
    have hmm : ',' ∈ c.data := by simpa using hcomma
    have hne : c ≠ "" := by
      intro h
      subst h
      simp at hmm
    have hval : validate_distance_params (some c) d = true := by
      unfold validate_distance_params
      simp [truthy, hne, hmm, hdig]
    unfold near get_filtered_queryset filter_by_character_checked filter_by_date_range
      filter_by_distance
    simp only [Option.getD_some, hval, if_true, hsplit, hla, hlo]

/-- Witness for C1: a stored coordinate equal to the reference has
distance 0 and is kept at maximum distance 0. -/
theorem near_distance_filter_witness :
    locationDistance 10 10 witnessLoc = 0
    ∧ witnessLoc ∈ distanceFilterSort 10 10 0 none [witnessLoc] := by
  have h := (near_distance_filter 10 10 0 none [witnessLoc]).2.2.2.1 witnessLoc rfl rfl
  exact ⟨h.1, h.2 (by simp)⟩

/-- C9: the `character` and `date_range` filters commute with each
other, and running them before the distance step equals one combined
AND-filter applied alongside the distance threshold, followed by the
distance ordering — so the implemented order (character, then
date range, then distance) computes the conjunction of independent
predicates. -/
theorem location_filters_commute (lat0 lon0 maxD : ℚ) (ascending : Option String)
    (character : Option Nat) (a b : List Char) (l : List Location) :
    dateRangeFilter a b (filter_by_character character l)
        = filter_by_character character (dateRangeFilter a b l)
    ∧ distanceFilterSort lat0 lon0 maxD ascending
          (dateRangeFilter a b (filter_by_character character l))
        = List.insertionSort (distanceLe lat0 lon0 (ascFlag ascending))
            (l.filter (fun loc =>
              (match character with
                | none => true
                | some cid => loc.character == cid)
              && (decide (a ≤ loc.timestamp.data) && decide (loc.timestamp.data ≤ b))
              && decide (locationDistance lat0 lon0 loc ≤ (maxD : ℝ)))) := by
  constructor
  · cases character with
    | none => rfl
    | some cid =>
      show List.filter (fun loc => decide (a ≤ loc.timestamp.data)
            && decide (loc.timestamp.data ≤ b))
          (List.filter (fun loc => loc.character == cid) l)
        = List.filter (fun loc => loc.character == cid)
          (List.filter (fun loc => decide (a ≤ loc.timestamp.data)
            && decide (loc.timestamp.data ≤ b)) l)
      rw [List.filter_filter, List.filter_filter]
      exact List.filter_congr (fun (loc : Location) _ => Bool.and_comm _ _)
  · cases character with
    | none =>
      show List.insertionSort (distanceLe lat0 lon0 (ascFlag ascending))
          (List.filter (fun loc => decide (locationDistance lat0 lon0 loc ≤ (maxD : ℝ)))
            (List.filter (fun loc => decide (a ≤ loc.timestamp.data)
              && decide (loc.timestamp.data ≤ b)) l))
        = List.insertionSort (distanceLe lat0 lon0 (ascFlag ascending))
          (List.filter (fun loc => true
            && (decide (a ≤ loc.timestamp.data) && decide (loc.timestamp.data ≤ b))
            && decide (locationDistance lat0 lon0 loc ≤ (maxD : ℝ))) l)
      rw [List.filter_filter]
      congr 1
      refine List.filter_congr (fun (loc : Location) _ => ?_)
      rw [Bool.true_and]
      exact Bool.and_comm _ _
    | some cid =>
      show List.insertionSort (distanceLe lat0 lon0 (ascFlag ascending))
          (List.filter (fun loc => decide (locationDistance lat0 lon0 loc ≤ (maxD : ℝ)))
            (List.filter (fun loc => decide (a ≤ loc.timestamp.data)
              && decide (loc.timestamp.data ≤ b))
              (List.filter (fun loc => loc.character == cid) l)))
        = List.insertionSort (distanceLe lat0 lon0 (ascFlag ascending))
          (List.filter (fun loc => (loc.character == cid)
            && (decide (a ≤ loc.timestamp.data) && decide (loc.timestamp.data ≤ b))
            && decide (locationDistance lat0 lon0 loc ≤ (maxD : ℝ))) l)
      rw [List.filter_filter, List.filter_filter]
      congr 1
      refine List.filter_congr (fun (loc : Location) _ => ?_)
      cases hc : (loc.character == cid) <;>
        cases ht : (decide (a ≤ loc.timestamp.data) && decide (loc.timestamp.data ≤ b)) <;>
        cases hd : decide (locationDistance lat0 lon0 loc ≤ (maxD : ℝ)) <;> rfl

/-- C4 counterexample: `distance="1.5"` parses as a non-negative number,
and `coordinates="1,2"` is present with a comma, yet validation fails
and the operation returns the 400 error — refuting the claimed
characterisation of the accepted `distance` values. -/
theorem near_validation_counterexample :
    parsesAsNonNegNumber "1.5" = true
    ∧ "1,2".data.contains ',' = true
    ∧ near (some "1,2") (some "1.5") none none none [] = .badRequest nearParamsDetail := by
  refine ⟨?_, by decide, by decide⟩
  have h : parseDecimal "1.5".data
      = some ((15 : ℚ) * (10 : ℚ) ^ ((0 : ℤ) - (1 : ℤ))) := rfl
  unfold parsesAsNonNegNumber
  rw [h]
  exact decide_eq_true (by positivity)

/-- C4 amended: validation passes iff `coordinates` is present,
non-empty and contains a comma, and `distance` is a non-empty string of
decimal digits (hence a non-negative integer); every validation failure,
and only a validation failure, yields the 400 response with the fixed
message. -/
theorem near_validation_amended (coordinates distance ascending : Option String)
    (character : Option String) (date_range : Option String) (l : List Location) :
    (near coordinates distance ascending character date_range l
        = .badRequest nearParamsDetail
      ↔ ¬ ∃ c, coordinates = some c ∧ c ≠ "" ∧ c.data.contains ',' = true
          ∧ distance.getD "" ≠ "" ∧ (distance.getD "").data.all Char.isDigit = true)
    ∧ (∀ d, near coordinates distance ascending character date_range l = .badRequest d →
        d = nearParamsDetail) := by
  by_cases hval : validate_distance_params coordinates (distance.getD "") = true
  · have hnear : ∀ d, near coordinates distance ascending character date_range l
        ≠ .badRequest d := by
      intro d
      unfold near
      simp only [hval, if_true]
      cases get_filtered_queryset (coordinates.getD "") (digitsToNat (distance.getD "").data)
          ascending character date_range l <;> simp
    constructor
    · exact iff_of_false (hnear _)
        (not_not_intro ((validate_distance_params_iff _ _).mp hval))
    · intro d hd
      exact absurd hd (hnear d)
  · have hval' : validate_distance_params coordinates (distance.getD "") = false :=
      Bool.eq_false_iff.mpr hval
    have hnear : near coordinates distance ascending character date_range l
        = .badRequest nearParamsDetail := by
      unfold near
      simp only [hval', Bool.false_eq_true, if_false]
    constructor
    · exact iff_of_true hnear
        (fun hcond => hval ((validate_distance_params_iff _ _).mpr hcond))
    · intro d hd
      rw [hnear] at hd
      injection hd with h
      exact h.symm

/-- Witness for C4 amended at the request with both parameters
missing. -/
theorem near_validation_amended_witness :
    near none none none none none [] = .badRequest nearParamsDetail :=
  ((near_validation_amended none none none none none []).1).mpr (by simp)

/-- C5 counterexample: `coordinates="1,2,3"` passes validation (it
contains a comma) but the tuple unpacking in `filter_by_distance`
raises an uncaught `ValueError`, so the request escapes with an
unhandled exception instead of a structured response. -/
theorem near_no_crash_counterexample :
    near (some "1,2,3") (some "5") none none none [] = .crash "ValueError" := by
  decide

/-- C5 amended: the `near` operation terminates with a structured
response (200 or the 400 error) provided the `coordinates` parameter
splits into exactly two parts each a finite decimal numeric string, the
`character` parameter (when present) is an integer string, and the
`date_range` parameter (when present) splits into exactly two parts
that both parse as datetimes; but when validation passes and
`character` is not an integer string, or `date_range` does not split
into two datetime-parsable parts, or `coordinates` does not split into
exactly two parts or has a part outside Decimal's numeric-string
grammar, the ValueError / ValidationError / InvalidOperation exception
escapes the handler unhandled. -/
theorem near_crash_amended (coordinates distance ascending : Option String)
    (character : Option String) (date_range : Option String) (l : List Location) :
    ((∀ c, coordinates = some c → wellFormedCoordinates c) →
      wellFormedDateRange date_range → wellFormedCharacter character →
      (∃ data, near coordinates distance ascending character date_range l = .ok data)
      ∨ near coordinates distance ascending character date_range l
          = .badRequest nearParamsDetail)
    ∧ (∀ s, character = some s →
        validate_distance_params coordinates (distance.getD "") = true →
        pyInt s.data = none →
        ∃ e, near coordinates distance ascending character date_range l = .crash e)
    ∧ (∀ s, date_range = some s →
        validate_distance_params coordinates (distance.getD "") = true →
        ((∀ x y, splitOnComma s.data ≠ [x, y])
          ∨ ∃ x y, splitOnComma s.data = [x, y]
              ∧ (djangoDatetimeOk x = false ∨ djangoDatetimeOk y = false)) →
        ∃ e, near coordinates distance ascending character date_range l = .crash e)
    ∧ (∀ c, coordinates = some c →
        validate_distance_params coordinates (distance.getD "") = true →
        ((∀ la lo, splitOnComma c.data ≠ [la, lo])
          ∨ ∃ la lo, splitOnComma c.data = [la, lo]
              ∧ ((parseDecimal la = none ∧ decimalSpecial la = false)
                ∨ (parseDecimal lo = none ∧ decimalSpecial lo = false))) →
        ∃ e, near coordinates distance ascending character date_range l = .crash e) := by
  by_cases hval : validate_distance_params coordinates (distance.getD "") = true
  · have hnear_ok : ∀ d, get_filtered_queryset (coordinates.getD "")
        ((digitsToNat (distance.getD "").data : ℚ)) ascending character date_range l
          = .ok d →
        near coordinates distance ascending character date_range l = .ok d := by
      intro d hd
      unfold near
      simp only [hval, if_true]
      rw [hd]
    have hnear_err : ∀ e, get_filtered_queryset (coordinates.getD "")
        ((digitsToNat (distance.getD "").data : ℚ)) ascending character date_range l
          = .error e →
        near coordinates distance ascending character date_range l = .crash e := by
      intro e he
      unfold near
      simp only [hval, if_true]
      rw [he]
    have hgfq_err1 : ∀ e, filter_by_character_checked character l = .error e →
        get_filtered_queryset (coordinates.getD "")
          ((digitsToNat (distance.getD "").data : ℚ)) ascending character date_range l
          = .error e := by
      intro e he
      unfold get_filtered_queryset
      rw [he]
    have hgfq_err2 : ∀ q1, filter_by_character_checked character l = .ok q1 →
        ∀ e, filter_by_date_range date_range q1 = .error e →
        get_filtered_queryset (coordinates.getD "")
          ((digitsToNat (distance.getD "").data : ℚ)) ascending character date_range l
          = .error e := by
      intro q1 hq1 e he
      unfold get_filtered_queryset
      rw [hq1]
      show (match filter_by_date_range date_range q1 with
        | .error e => Except.error e
        | .ok q => filter_by_distance (coordinates.getD "")
            ((digitsToNat (distance.getD "").data : ℚ)) ascending q) = Except.error e
      rw [he]
    have hgfq_ok : ∀ q1, filter_by_character_checked character l = .ok q1 →
        ∀ q2, filter_by_date_range date_range q1 = .ok q2 →
        get_filtered_queryset (coordinates.getD "")
          ((digitsToNat (distance.getD "").data : ℚ)) ascending character date_range l
          = filter_by_distance (coordinates.getD "")
              ((digitsToNat (distance.getD "").data : ℚ)) ascending q2 := by
      intro q1 hq1 q2 hq2
      unfold get_filtered_queryset
      rw [hq1]
      show (match filter_by_date_range date_range q1 with
        | .error e => Except.error e
        | .ok q => filter_by_distance (coordinates.getD "")
            ((digitsToNat (distance.getD "").data : ℚ)) ascending q)
          = filter_by_distance (coordinates.getD "")
              ((digitsToNat (distance.getD "").data : ℚ)) ascending q2
      rw [hq2]
    refine ⟨?_, ?_, ?_, ?_⟩
    · intro hcoords hrange hchar
      obtain ⟨c, hc, -, -, -, -⟩ := (validate_distance_params_iff _ _).mp hval
      subst hc
      obtain ⟨q1, hq1⟩ : ∃ q1, filter_by_character_checked character l = .ok q1 := by
        cases character with
        | none => exact ⟨l, rfl⟩
        | some s =>
          obtain ⟨cid, hcid⟩ := hchar
          refine ⟨l.filter (fun loc => ((loc.character : ℤ) == cid)), ?_⟩
          show (match pyInt s.data with
            | some cid => Except.ok (l.filter (fun loc => ((loc.character : ℤ) == cid)))
            | none => Except.error "ValueError")
              = Except.ok (l.filter (fun loc => ((loc.character : ℤ) == cid)))
          rw [hcid]
      obtain ⟨q2, hq2⟩ : ∃ q2, filter_by_date_range date_range q1 = .ok q2 := by
        cases date_range with
        | none => exact ⟨q1, rfl⟩
        | some s =>
          obtain ⟨x, y, hxy, hx, hy⟩ := hrange
          refine ⟨dateRangeFilter x y q1, ?_⟩
          show (match splitOnComma s.data with
            | [u, v] => if djangoDatetimeOk u && djangoDatetimeOk v
                then Except.ok (dateRangeFilter u v q1) else Except.error "ValidationError"
            | _ => Except.error "ValueError") = Except.ok (dateRangeFilter x y q1)
          rw [hxy]
          simp [hx, hy]
      obtain ⟨q3, hq3⟩ : ∃ q3, filter_by_distance c
          ((digitsToNat (distance.getD "").data : ℚ)) ascending q2 = .ok q3 := by
        obtain ⟨la, lo, u, v, hsp, hla, hlo⟩ := hcoords c rfl
        refine ⟨distanceFilterSort u v ((digitsToNat (distance.getD "").data : ℚ))
          ascending q2, ?_⟩
        unfold filter_by_distance
        rw [hsp]
        show (match parseDecimal la, parseDecimal lo with
          | some a0, some b0 => Except.ok (distanceFilterSort a0 b0
              ((digitsToNat (distance.getD "").data : ℚ)) ascending q2)
          | _, _ => Except.error "InvalidOperation")
            = Except.ok (distanceFilterSort u v
                ((digitsToNat (distance.getD "").data : ℚ)) ascending q2)
        rw [hla, hlo]
      left
      refine ⟨q3, hnear_ok q3 ?_⟩
      rw [hgfq_ok q1 hq1 q2 hq2]
      exact hq3
    · intro s hs hv hpy
      subst hs
      refine ⟨"ValueError", hnear_err _ (hgfq_err1 _ ?_)⟩
      show (match pyInt s.data with
        | some cid => Except.ok (l.filter (fun loc => ((loc.character : ℤ) == cid)))
        | none => Except.error "ValueError") = Except.error "ValueError"
      rw [hpy]
    · intro s hs hv hbad
      subst hs
      cases hch : filter_by_character_checked character l with
      | error e => exact ⟨e, hnear_err e (hgfq_err1 e hch)⟩
      | ok q1 =>
        have hde : ∃ e, filter_by_date_range (some s) q1 = .error e := by
          rcases hbad with hbad | ⟨x, y, hxy, hxybad⟩
          · refine ⟨"ValueError", ?_⟩
            show (match splitOnComma s.data with
              | [u, v] => if djangoDatetimeOk u && djangoDatetimeOk v
                  then Except.ok (dateRangeFilter u v q1)
                  else Except.error "ValidationError"
              | _ => Except.error "ValueError") = Except.error "ValueError"
            rcases hsp : splitOnComma s.data with _ | ⟨x, _ | ⟨y, _ | ⟨z, t⟩⟩⟩
            · rfl
            · rfl
            · exact absurd hsp (hbad x y)
            · rfl
          · refine ⟨"ValidationError", ?_⟩
            show (match splitOnComma s.data with
              | [u, v] => if djangoDatetimeOk u && djangoDatetimeOk v
                  then Except.ok (dateRangeFilter u v q1)
                  else Except.error "ValidationError"
              | _ => Except.error "ValueError") = Except.error "ValidationError"
            rw [hxy]
            rcases hxybad with h | h <;> simp [h]
        obtain ⟨e, he⟩ := hde
        exact ⟨e, hnear_err e (hgfq_err2 q1 hch e he)⟩
    · intro c hc hv hbad
      subst hc
      cases hch : filter_by_character_checked character l with
      | error e => exact ⟨e, hnear_err e (hgfq_err1 e hch)⟩
      | ok q1 =>
        cases hdr : filter_by_date_range date_range q1 with
        | error e => exact ⟨e, hnear_err e (hgfq_err2 q1 hch e hdr)⟩
        | ok q2 =>
          have hfe : ∃ e, filter_by_distance c
              ((digitsToNat (distance.getD "").data : ℚ)) ascending q2 = .error e := by
            unfold filter_by_distance
            rcases hbad with hbad | ⟨la, lo, hsp, hparse⟩
            · rcases hsp : splitOnComma c.data with _ | ⟨x, _ | ⟨y, _ | ⟨z, t⟩⟩⟩
              · exact ⟨"ValueError", rfl⟩
              · exact ⟨"ValueError", rfl⟩
              · exact absurd hsp (hbad x y)
              · exact ⟨"ValueError", rfl⟩
            · rw [hsp]
              refine ⟨"InvalidOperation", ?_⟩
              show (match parseDecimal la, parseDecimal lo with
                | some a0, some b0 => Except.ok (distanceFilterSort a0 b0
                    ((digitsToNat (distance.getD "").data : ℚ)) ascending q2)
                | _, _ => Except.error "InvalidOperation") = Except.error "InvalidOperation"
              rcases hparse with ⟨hla, -⟩ | ⟨hlo, -⟩
              · rw [hla]
              · rcases hla2 : parseDecimal la with _ | u
                · rfl
                · rw [hlo]
          obtain ⟨e, he⟩ := hfe
          refine ⟨e, hnear_err e ?_⟩
          rw [hgfq_ok q1 hch q2 hdr]
          exact he
  · have hval2 : validate_distance_params coordinates (distance.getD "") = false :=
      Bool.eq_false_iff.mpr hval
    refine ⟨?_, ?_, ?_, ?_⟩
    · intro _ _ _
      right
      unfold near
      simp only [hval2, Bool.false_eq_true, if_false]
    · intro s _ hv _
      exact absurd hv hval
    · intro s _ hv _
      exact absurd hv hval
    · intro c _ hv _
      exact absurd hv hval

/-- Witness for C5 amended: a well-formed request returns a structured
response. -/
theorem near_crash_amended_witness :
    (∃ data, near (some "1,2") (some "5") none none none [] = .ok data)
    ∨ near (some "1,2") (some "5") none none none [] = .badRequest nearParamsDetail := by
  refine (near_crash_amended (some "1,2") (some "5") none none none []).1 ?_ trivial trivial
  intro c hc
  cases hc
  exact ⟨"1".data, "2".data, _, _, by decide, rfl, rfl⟩

end BreakingBad
